import Mathlib

/-!
Shallow embedding of the MidJourney service pool (`api/service/mj/pool.go`)
of the chatgpt-plus repository, together with theorems checking the
natural-language specification against it.

The pool logic (worker construction, the notification fan-out loop, the
artifact archival loop `DownloadImages`, and the progress reconciliation
loop `SyncTaskProgress`) is translated directly from the Go source.
External collaborators (the gorm store, the uploader, provider-connector
clients, live websocket connections, the license validator) are modelled
as explicit state (lists of rows) and environment functions, matching the
capability surface the source code uses.
-/

namespace GeekMj

/-- Modelled from the spec (§3 data model; struct `model.MidJourneyJob` is
not under `src/`): one row per submitted generation task, with exactly the
fields `pool.go` reads and writes.  `createdAt` is a timestamp in seconds. -/
structure MidJourneyJob where
  id : Nat
  taskId : String
  channelId : String
  userId : Nat
  progress : Int
  power : Int
  orgURL : String
  imgURL : String
  hash : String
  createdAt : Int
  deriving Repr, DecidableEq

/-- Modelled from the spec (§3; struct `model.User` is not under `src/`):
the user row fields `pool.go` reads and writes (`id`, `username`, `power`). -/
structure User where
  id : Nat
  username : String
  power : Int
  deriving Repr, DecidableEq

/-- Modelled from the spec (§6; `types.PowerConsume` is not under `src/`):
the type tag of a power-log entry. -/
inductive PowerLogType where
  | PowerConsume
  | PowerRecharge
  | PowerGift
  deriving Repr, DecidableEq

/-- Modelled from the spec (§6; `types.PowerAdd` is not under `src/`):
the direction mark of a power-log entry. -/
inductive PowerMark where
  | PowerSub
  | PowerAdd
  deriving Repr, DecidableEq

/-- Modelled from the spec (§3, §6; struct `model.PowerLog` is not under
`src/`): an append-only audit entry, with the fields `pool.go` writes. -/
structure PowerLog where
  userId : Nat
  username : String
  type : PowerLogType
  amount : Int
  balance : Int
  mark : PowerMark
  model : String
  remark : String
  createdAt : Int
  deriving Repr, DecidableEq

/-- The persistent store as seen by `pool.go`: job rows, user rows, and the
append-only power log. -/
structure DBState where
  jobs : List MidJourneyJob
  users : List User
  powerLogs : List PowerLog
  deriving Repr, DecidableEq

/-- Observable store/side effects of one reconciliation pass, in program
order. -/
inductive Action where
  | deleteJob (jobId : Nat)
  | incrementPower (userId : Nat) (delta : Int) (rowsAffected : Nat)
  | createPowerLog (log : PowerLog)
  | notifyWorker (channelId : String) (jobId : Nat)
  deriving Repr, DecidableEq

/-- `p.getService(name)`: linear scan of the pool's worker list by name
(`pool.go:212`), here over the list of worker names. -/
def getServiceName (services : List String) (channelId : String) : Option String :=
  services.find? (fun s => s == channelId)

/-- Expiry predicate of `SyncTaskProgress` (`pool.go:180`):
`time.Now().Sub(job.CreatedAt) > time.Minute*30 || job.Progress == -1`,
with durations in seconds (30 minutes = 1800 s). -/
def jobExpired (now : Int) (job : MidJourneyJob) : Bool :=
  decide (now - job.createdAt > 1800) || decide (job.progress = -1)

/-- The remark string written on a refund (`pool.go:195`). -/
def refundRemark (taskId : String) : String :=
  "绘画任务失败，退回算力。任务ID：" ++ taskId

/-- Default zero value of a gorm `model.User`, as left by a failed `First`. -/
def zeroUser (uid : Nat) : User :=
  { id := uid, username := "", power := 0 }

/-- Body of the per-job loop of `SyncTaskProgress` (`pool.go:178-205`):
if the job is expired, delete it, atomically add `job.power` to the owning
user's balance (`UpdateColumn power = power + ?`, affecting every user row
whose id matches), then — only when that update succeeded and affected at
least one row — read the user back (`First`) and append a power-log entry;
otherwise ask the owning worker, when one exists, to notify progress. -/
def processJob (services : List String) (now : Int) (st : DBState)
    (job : MidJourneyJob) : DBState × List Action :=
  if jobExpired now job then
    let jobs1 := st.jobs.filter (fun j => j.id != job.id)
    let rows := (st.users.filter (fun u => u.id == job.userId)).length
    let users1 := st.users.map (fun u =>
      if u.id == job.userId then { u with power := u.power + job.power } else u)
    let st1 : DBState := { st with jobs := jobs1, users := users1 }
    if rows > 0 then
      let user := (users1.find? (fun u => u.id == job.userId)).getD (zeroUser job.userId)
      let log : PowerLog :=
        { userId := user.id
          username := user.username
          type := PowerLogType.PowerConsume
          amount := job.power
          balance := user.power + job.power
          mark := PowerMark.PowerAdd
          model := "mid-journey"
          remark := refundRemark job.taskId
          createdAt := now }
      ({ st1 with powerLogs := st1.powerLogs ++ [log] },
        [Action.deleteJob job.id,
         Action.incrementPower job.userId job.power rows,
         Action.createPowerLog log])
    else
      (st1, [Action.deleteJob job.id, Action.incrementPower job.userId job.power rows])
  else
    match getServiceName services job.channelId with
    | some s => (st, [Action.notifyWorker s job.id])
    | none => (st, [])

/-- One full pass of the reconciliation loop (`pool.go:173-205`): snapshot
all jobs with `progress < 100` (`Find` into `items`), then process each
snapshot entry in order against the evolving store. -/
def syncOnePass (services : List String) (now : Int) (st : DBState) :
    DBState × List Action :=
  let items := st.jobs.filter (fun j => decide (j.progress < 100))
  items.foldl
    (fun acc job =>
      let r := processJob services now acc.1 job
      (r.1, acc.2 ++ r.2))
    (st, [])

/-- A selectable follow-up action (button) of a connector task status
(`task.Buttons`, `pool.go:125`). -/
structure MjButton where
  customId : String
  deriving Repr, DecidableEq

/-- The slice of a connector `QueryTask` result that `DownloadImages`
reads: the list of buttons.  A failed query yields the zero value (no
buttons), since `pool.go:124` discards the error. -/
structure MjTaskInfo where
  buttons : List MjButton
  deriving Repr, DecidableEq

/-- Environment of the archival loop `DownloadImages`: the pool's worker
names, the connector query capability, the `GetImageHash` helper (defined
elsewhere in package `mj`, outside `pool.go`), the uploader's `PutImg`
capability (second argument is the boolean `pool.go` passes: `false` when
the owning worker was found — a "private" archive per the spec — and
`true` otherwise — "public"), and the set of user ids with a registered
live connection. -/
structure ArchiveEnv where
  services : List String
  queryTask : String → MjTaskInfo
  getImageHash : String → String
  putImg : String → Bool → Except String String
  clients : List Nat

/-- Observable effects of one archival pass, in program order. -/
inductive ArchiveAction where
  | putImgReq (orgURL : String) (isPublic : Bool)
  | logDownloadError (orgURL : String) (err : String)
  | updateJob (job : MidJourneyJob)
  | sendFinished (userId : Nat)
  deriving Repr, DecidableEq

/-- Recognizer for the "finished" notification effect. -/
def isSendFinished : ArchiveAction → Bool
  | ArchiveAction.sendFinished _ => true
  | _ => false

/-- Tail of the per-job archival body (`pool.go:128-149`): call `PutImg`
on the original URL; on failure log and leave the store untouched; on
success set `imgURL` on the (possibly hash-updated) row `v1`, persist it
(`db.Updates`, keyed by id), and send the "finished" payload to the
owner's live connection when one is registered (`Clients.Get`; a nil
client or a failed send is skipped). -/
def archiveFinish (env : ArchiveEnv) (st : DBState) (v v1 : MidJourneyJob)
    (isPublic : Bool) : DBState × List ArchiveAction :=
  match env.putImg v.orgURL isPublic with
  | Except.error e =>
    (st, [ArchiveAction.putImgReq v.orgURL isPublic,
          ArchiveAction.logDownloadError v.orgURL e])
  | Except.ok url =>
    let v2 := { v1 with imgURL := url }
    let st1 : DBState :=
      { st with jobs := st.jobs.map (fun j => if j.id == v.id then v2 else j) }
    if env.clients.contains v.userId then
      (st1, [ArchiveAction.putImgReq v.orgURL isPublic, ArchiveAction.updateJob v2,
             ArchiveAction.sendFinished v.userId])
    else
      (st1, [ArchiveAction.putImgReq v.orgURL isPublic, ArchiveAction.updateJob v2])

/-- Hash derivation of the worker-found branch (`pool.go:124-127`): query
the connector's latest status and, when it has at least one button, set
the row's hash from the first button's custom id. -/
def hashFromButtons (env : ArchiveEnv) (v : MidJourneyJob) : MidJourneyJob :=
  match (env.queryTask v.taskId).buttons with
  | [] => v
  | b :: _ => { v with hash := env.getImageHash b.customId }

/-- Body of the per-job loop of `DownloadImages` (`pool.go:115-150`): skip
rows with an empty original URL; if the owning worker is found by channel
id, query the connector's latest status, derive the variant hash from the
first button when any exists, and archive with the `false` ("private")
flag; otherwise archive with the `true` ("public") flag. -/
def processArchiveJob (env : ArchiveEnv) (st : DBState) (v : MidJourneyJob) :
    DBState × List ArchiveAction :=
  if v.orgURL == "" then (st, [])
  else
    match getServiceName env.services v.channelId with
    | some _ => archiveFinish env st v (hashFromButtons env v) false
    | none => archiveFinish env st v v true

/-- Selection predicate of the archival scan (`pool.go:109`):
`img_url = "" AND progress = 100`. -/
def pendingArchival (j : MidJourneyJob) : Bool :=
  j.imgURL == "" && decide (j.progress = 100)

/-- One full pass of the archival loop (`pool.go:109-150`): snapshot all
rows matching the scan predicate, then process each in order. -/
def downloadOnePass (env : ArchiveEnv) (st : DBState) :
    DBState × List ArchiveAction :=
  let items := st.jobs.filter pendingArchival
  items.foldl
    (fun acc v =>
      let r := processArchiveJob env acc.1 v
      (r.1, acc.2 ++ r.2))
    (st, [])

/-- Effects of whole loop iterations, including the interval sleeps at
the bottom of each loop body. -/
inductive LoopAction where
  | dbAct (a : Action)
  | archiveAct (a : ArchiveAction)
  | logScanError (msg : String)
  | sleepSeconds (n : Nat)
  deriving Repr, DecidableEq

/-- One iteration of the `SyncTaskProgress` loop body (`pool.go:172-207`),
with the outcome of the store scan made explicit: when `Find` fails the
body hits `continue` before any processing, any logging, and before the
10-second sleep at the bottom of the loop; otherwise the pass runs and
then the loop sleeps. -/
def syncLoopIteration (services : List String) (now : Int) (scanFail : Bool)
    (st : DBState) : DBState × List LoopAction :=
  if scanFail then (st, [])
  else
    let r := syncOnePass services now st
    (r.1, r.2.map LoopAction.dbAct ++ [LoopAction.sleepSeconds 10])

/-- A finite unrolling of the `SyncTaskProgress` loop: one boolean per
iteration telling whether that iteration's scan fails.  The loop body has
no exit path, so every listed iteration runs. -/
def syncLoopRun (services : List String) (now : Int) (fails : List Bool)
    (st : DBState) : DBState × List LoopAction :=
  match fails with
  | [] => (st, [])
  | f :: rest =>
    let r := syncLoopIteration services now f st
    let r2 := syncLoopRun services now rest r.1
    (r2.1, r.2 ++ r2.2)

/-- One iteration of the `DownloadImages` loop body (`pool.go:108-153`):
a failed scan hits `continue` before any processing, logging, or the
5-second sleep; otherwise the archival pass runs and the loop sleeps. -/
def downloadLoopIteration (env : ArchiveEnv) (scanFail : Bool)
    (st : DBState) : DBState × List LoopAction :=
  if scanFail then (st, [])
  else
    let r := downloadOnePass env st
    (r.1, r.2.map LoopAction.archiveAct ++ [LoopAction.sleepSeconds 5])

/-- A finite unrolling of the `DownloadImages` loop. -/
def downloadLoopRun (env : ArchiveEnv) (fails : List Bool)
    (st : DBState) : DBState × List LoopAction :=
  match fails with
  | [] => (st, [])
  | f :: rest =>
    let r := downloadLoopIteration env f st
    let r2 := downloadLoopRun env rest r.1
    (r2.1, r.2 ++ r2.2)

/-- A notify-queue message (`sd.NotifyMessage`): target user id and raw
payload. -/
structure NotifyMessage where
  userId : Nat
  message : String
  deriving Repr, DecidableEq

/-- Observable effect of the fan-out loop: a delivery attempt to a live
connection, with whether the send succeeded. -/
inductive NotifyAction where
  | send (userId : Nat) (payload : String) (delivered : Bool)
  deriving Repr, DecidableEq

/-- One iteration of the `CheckTaskNotify` loop body (`pool.go:87-101`):
a failed `LPop` is skipped; a message whose target user has no registered
live connection is dropped; otherwise a send is attempted and its error,
if any, is discarded.  Every branch reaches `continue` — the body has no
return, panic, or error channel. -/
def notifyIteration (clients : List Nat) (sendOk : Nat → Bool)
    (pop : Option NotifyMessage) : List NotifyAction :=
  match pop with
  | none => []
  | some msg =>
    if clients.contains msg.userId then
      [NotifyAction.send msg.userId msg.message (sendOk msg.userId)]
    else []

/-- A finite unrolling of the fan-out loop over a list of pop outcomes
(`none` = pop error).  The codomain carries no error: the loop never
raises one. -/
def notifyRun (clients : List Nat) (sendOk : Nat → Bool)
    (pops : List (Option NotifyMessage)) : List NotifyAction :=
  match pops with
  | [] => []
  | p :: rest => notifyIteration clients sendOk p ++ notifyRun clients sendOk rest

/-- Modelled from the spec (§4.3; `types.MjPlusConfig` / `types.MjProxyConfig`
are not under `src/`): the two configuration fields `NewServicePool`
reads — the enabled flag and the endpoint URL. -/
structure BackendConfig where
  enabled : Bool
  apiURL : String
  deriving Repr, DecidableEq

/-- The connector client a worker wraps, tagged by variant and carrying
the configuration it was built from (`NewPlusClient` / `NewProxyClient`). -/
inductive MjClient where
  | plus (cfg : BackendConfig)
  | proxy (cfg : BackendConfig)
  deriving Repr, DecidableEq

/-- The slice of a dispatch worker that `NewServicePool` determines: its
name and its client. -/
structure Service where
  name : String
  client : MjClient
  deriving Repr, DecidableEq

/-- The two backend configuration lists of `types.AppConfig` that
`NewServicePool` reads. -/
structure AppConfig where
  mjPlusConfigs : List BackendConfig
  mjProxyConfigs : List BackendConfig
  deriving Repr, DecidableEq

/-- Loop body of the mj-plus construction loop (`pool.go:42-59`): skip
disabled entries, skip entries whose endpoint fails the license check
(`licenseService.IsValidApiURL`, modelled as the boolean `valid`), and
otherwise build a worker named after the entry's slice index. -/
def mkPlusService (valid : String → Bool) (kc : Nat × BackendConfig) :
    Option Service :=
  if kc.2.enabled = false then none
  else if valid kc.2.apiURL = false then none
  else some { name := "mj-plus-service-" ++ toString kc.1, client := MjClient.plus kc.2 }

/-- Loop body of the mj-proxy construction loop (`pool.go:62-73`): skip
disabled entries; no endpoint/license validation is performed. -/
def mkProxyService (kc : Nat × BackendConfig) : Option Service :=
  if kc.2.enabled = false then none
  else some { name := "mj-proxy-service-" ++ toString kc.1, client := MjClient.proxy kc.2 }

/-- `NewServicePool` (`pool.go:37-83`), restricted to the worker list it
builds: both configuration lists are walked with their indices, and the
surviving entries become workers, plus entries first. -/
def newServicePool (valid : String → Bool) (cfg : AppConfig) : List Service :=
  (cfg.mjPlusConfigs.enum.filterMap (mkPlusService valid)) ++
  (cfg.mjProxyConfigs.enum.filterMap mkProxyService)

/-- `HasAvailableService` (`pool.go:164-166`). -/
def hasAvailableService (services : List Service) : Bool :=
  services.length > 0

/-! ## Concrete example data, used by witnesses and counterexamples -/

/-- A user with balance 50 (`§8` scenario). -/
def exUser : User := { id := 1, username := "alice", power := 50 }

/-- A job with power 10 stuck at progress 50, submitted at time 0. -/
def exJob : MidJourneyJob :=
  { id := 7, taskId := "task-7", channelId := "mj-plus-service-0", userId := 1,
    progress := 50, power := 10, orgURL := "", imgURL := "", hash := "", createdAt := 0 }

/-- Store holding just `exJob` and `exUser`. -/
def exSt : DBState := { jobs := [exJob], users := [exUser], powerLogs := [] }

/-- Expiry/refund behavior of one reconciliation step on a job: the job
row is deleted, the owning user's balance is incremented by exactly the
job's power, the delete precedes the increment, and a power-log entry
for the job's power is appended exactly when the increment affected at
least one row. -/
def RefundBehavior (services : List String) (now : Int) (st : DBState)
    (job : MidJourneyJob) : Prop :=
  let r := processJob services now st job
  let rows := (st.users.filter (fun u => u.id == job.userId)).length
  r.1.jobs = st.jobs.filter (fun j => j.id != job.id) ∧
  r.1.users = st.users.map (fun u =>
    if u.id == job.userId then { u with power := u.power + job.power } else u) ∧
  r.2.take 2 = [Action.deleteJob job.id, Action.incrementPower job.userId job.power rows] ∧
  ((∃ log, r.1.powerLogs = st.powerLogs ++ [log] ∧ log.amount = job.power) ↔ 0 < rows)

/-- `jobExpired` holds under either disjunct of the expiry condition. -/
theorem jobExpired_of_cond {now : Int} {job : MidJourneyJob}
    (hexp : now - job.createdAt > 1800 ∨ job.progress = -1) :
    jobExpired now job = true := by
  unfold jobExpired
  rcases hexp with h | h
  · simp [h]
  · simp [h]

/-- C1: for every job record with progress < 100 that is expired (older
than 30 minutes or progress = -1), the reconciliation step deletes the
job record, then credits back exactly the job's power to the owning user
via the atomic balance increment, and appends a power-log entry if and
only if that increment affected at least one row. -/
theorem C1_expired_refund (services : List String) (now : Int) (st : DBState)
    (job : MidJourneyJob) (hprog : job.progress < 100)
    (hexp : now - job.createdAt > 1800 ∨ job.progress = -1) :
    RefundBehavior services now st job := by
  have hexp' := jobExpired_of_cond hexp
  unfold RefundBehavior
  by_cases hrows : 0 < (st.users.filter (fun u => u.id == job.userId)).length
  · simp only [processJob, hexp', if_true]
    rw [if_pos hrows]
    refine ⟨rfl, rfl, rfl, ?_⟩
    exact ⟨fun _ => hrows, fun _ => ⟨_, rfl, rfl⟩⟩
  · simp only [processJob, hexp', if_true]
    rw [if_neg hrows]
    refine ⟨rfl, rfl, rfl, ?_⟩
    constructor
    · rintro ⟨log, h, -⟩
      exact absurd h.symm (by simp)
    · intro h
      exact absurd h hrows

/-- Witness for C1 at the §8 scenario input (31 minutes elapsed,
progress stuck at 50). -/
theorem C1_expired_refund_witness :
    exJob.progress < 100 ∧
    ((1860 : Int) - exJob.createdAt > 1800 ∨ exJob.progress = -1) ∧
    RefundBehavior [] 1860 exSt exJob :=
  ⟨by decide, by decide, C1_expired_refund [] 1860 exSt exJob (by decide) (by decide)⟩

/-- C2 (code bug): at the §8 scenario input — user balance 50, job power
10, 31 minutes elapsed, progress 50 — the pass deletes the job and the
user's balance becomes 60 as claimed, but the power-log entry records
balance 70, not the resulting balance 60: the code reads the user back
*after* the atomic increment and then writes `user.Power + job.Power`
(`pool.go:186,192`), double-counting the refund in the audit field. -/
theorem C2_refund_log_balance_bug :
    (syncOnePass [] 1860 exSt).1.jobs = [] ∧
    (syncOnePass [] 1860 exSt).1.users = [{ id := 1, username := "alice", power := 60 }] ∧
    (syncOnePass [] 1860 exSt).1.powerLogs.map (fun l => (l.amount, l.mark, l.balance)) =
      [(10, PowerMark.PowerAdd, 70)] := by decide

/-- C5: when no user row matches the job's owner, the increment affects
zero rows; the job deletion still proceeds and the power log is
unchanged. -/
theorem C5_zero_row_refund (services : List String) (now : Int) (st : DBState)
    (job : MidJourneyJob)
    (hexp : now - job.createdAt > 1800 ∨ job.progress = -1)
    (husr : st.users.filter (fun u => u.id == job.userId) = []) :
    (processJob services now st job).1.jobs = st.jobs.filter (fun j => j.id != job.id) ∧
    (processJob services now st job).1.powerLogs = st.powerLogs := by
  have hexp' := jobExpired_of_cond hexp
  have hrows : ¬ 0 < (st.users.filter (fun u => u.id == job.userId)).length := by
    rw [husr]; simp
  simp only [processJob, hexp', if_true]
  rw [if_neg hrows]
  exact ⟨rfl, rfl⟩

/-- Same job as `exJob`, but owned by a user id with no user row. -/
def exOrphanJob : MidJourneyJob := { exJob with id := 8, userId := 42 }

/-- Witness for C5: missing user row, job still deleted, no log entry. -/
theorem C5_zero_row_refund_witness :
    ((1860 : Int) - exOrphanJob.createdAt > 1800 ∨ exOrphanJob.progress = -1) ∧
    (exSt.users.filter (fun u => u.id == exOrphanJob.userId) = []) ∧
    ((processJob [] 1860 exSt exOrphanJob).1.jobs =
      exSt.jobs.filter (fun j => j.id != exOrphanJob.id) ∧
     (processJob [] 1860 exSt exOrphanJob).1.powerLogs = exSt.powerLogs) :=
  ⟨by decide, by decide, C5_zero_row_refund [] 1860 exSt exOrphanJob (by decide) (by decide)⟩

/-- C10: any power-log entry appended by the expiry step carries type tag
`PowerConsume`, mark `PowerAdd`, and model tag "mid-journey", and its
amount is the job's power — the type tag says "consume" although the entry
records a credit addition (`pool.go:190-194`). -/
theorem C10_refund_log_tags (services : List String) (now : Int) (st : DBState)
    (job : MidJourneyJob)
    (hexp : now - job.createdAt > 1800 ∨ job.progress = -1) :
    (processJob services now st job).1.powerLogs = st.powerLogs ∨
    ∃ log, (processJob services now st job).1.powerLogs = st.powerLogs ++ [log] ∧
      log.type = PowerLogType.PowerConsume ∧ log.mark = PowerMark.PowerAdd ∧
      log.model = "mid-journey" ∧ log.amount = job.power := by
  have hexp' := jobExpired_of_cond hexp
  by_cases hrows : 0 < (st.users.filter (fun u => u.id == job.userId)).length
  · right
    simp only [processJob, hexp', if_true]
    rw [if_pos hrows]
    exact ⟨_, rfl, rfl, rfl, rfl, rfl⟩
  · left
    simp only [processJob, hexp', if_true]
    rw [if_neg hrows]

/-- Witness for C10 at the §8 scenario input. -/
theorem C10_refund_log_tags_witness :
    ((1860 : Int) - exJob.createdAt > 1800 ∨ exJob.progress = -1) ∧
    ((processJob [] 1860 exSt exJob).1.powerLogs = exSt.powerLogs ∨
     ∃ log, (processJob [] 1860 exSt exJob).1.powerLogs = exSt.powerLogs ++ [log] ∧
       log.type = PowerLogType.PowerConsume ∧ log.mark = PowerMark.PowerAdd ∧
       log.model = "mid-journey" ∧ log.amount = exJob.power) :=
  ⟨by decide, C10_refund_log_tags [] 1860 exSt exJob (by decide)⟩

/-! ## Archival loop: claims C3, C7, C8 -/

/-- A completed job pending archival, from the §8 scenario
(progress 100, org URL set, img URL empty), whose channel has no
configured worker. -/
def exArchJob : MidJourneyJob :=
  { id := 3, taskId := "t3", channelId := "ch-gone", userId := 5, progress := 100,
    power := 10, orgURL := "https://x/img.png", imgURL := "", hash := "", createdAt := 0 }

/-- Archival environment whose uploader always succeeds and in which no
user has a live connection. -/
def exArchEnvNoClient : ArchiveEnv :=
  { services := [], queryTask := fun _ => { buttons := [] }, getImageHash := fun s => s,
    putImg := fun _ _ => Except.ok ("https://cdn/img-archived.png"), clients := [] }

/-- Archival environment whose uploader always succeeds and in which the
owner of `exArchJob` (user 5) has a live connection. -/
def exArchEnvClient : ArchiveEnv :=
  { services := [], queryTask := fun _ => { buttons := [] }, getImageHash := fun s => s,
    putImg := fun _ _ => Except.ok ("https://cdn/img-archived.png"), clients := [5] }

/-- Counterexample to C3 as stated: a successful archive of `exArchJob`
(the img URL is set and persisted) during which zero "finished"
notifications are issued, because the owning user has no registered live
connection (`pool.go:142-144`: a nil client skips the send). -/
theorem C3_counterexample :
    let r := downloadOnePass exArchEnvNoClient
      { jobs := [exArchJob], users := [], powerLogs := [] }
    r.1.jobs.map (fun j => j.imgURL) = ["https://cdn/img-archived.png"] ∧
    r.2.filter isSendFinished = [] := by decide

/-- Result of a successful archival step on the single pending job `v`:
the persisted row carries the non-empty archived URL, the update is
issued, and the number of "finished" notifications is one when the owner
has a live connection and zero otherwise. -/
def ArchiveSuccessBehavior (env : ArchiveEnv) (v : MidJourneyJob)
    (users : List User) (logs : List PowerLog) (url : String) : Prop :=
  let r := downloadOnePass env { jobs := [v], users := users, powerLogs := logs }
  (∃ v2, r.1.jobs = [v2] ∧ v2.imgURL = url ∧ v2.imgURL ≠ "" ∧
    ArchiveAction.updateJob v2 ∈ r.2) ∧
  (r.2.filter isSendFinished).length = (if env.clients.contains v.userId then 1 else 0)

/-- C3 (amended): for a job pending archival whose archive succeeds with
a non-empty URL, the pass sets and persists the img URL; exactly one
"finished" notification is issued when the owning user has a registered
live connection, and none otherwise. -/
theorem C3_archive_success (env : ArchiveEnv) (v : MidJourneyJob)
    (users : List User) (logs : List PowerLog) (url : String)
    (hprog : v.progress = 100) (himg : v.imgURL = "")
    (horg : (v.orgURL == "") = false)
    (hput : ∀ pub, env.putImg v.orgURL pub = Except.ok url)
    (hurl : url ≠ "") :
    ArchiveSuccessBehavior env v users logs url := by
  have hpend : pendingArchival v = true := by simp [pendingArchival, himg, hprog]
  unfold ArchiveSuccessBehavior downloadOnePass
  simp only [List.filter, hpend, List.foldl, List.nil_append]
  unfold processArchiveJob
  rw [horg]
  simp only [Bool.false_eq_true, if_false]
  cases hserv : getServiceName env.services v.channelId with
  | some s =>
    unfold archiveFinish
    rw [hput false]
    by_cases hc : env.clients.contains v.userId
    · simp only [hc, if_true]
      refine ⟨⟨{ hashFromButtons env v with imgURL := url }, ?_, rfl, hurl, ?_⟩, ?_⟩
      · simp
      · simp
      · simp [isSendFinished, hc]
    · simp only [hc, Bool.false_eq_true, if_false]
      refine ⟨⟨{ hashFromButtons env v with imgURL := url }, ?_, rfl, hurl, ?_⟩, ?_⟩
      · simp
      · simp
      · simp [isSendFinished, hc]
  | none =>
    unfold archiveFinish
    rw [hput true]
    by_cases hc : env.clients.contains v.userId
    · simp only [hc, if_true]
      refine ⟨⟨{ v with imgURL := url }, ?_, rfl, hurl, ?_⟩, ?_⟩
      · simp
      · simp
      · simp [isSendFinished, hc]
    · simp only [hc, Bool.false_eq_true, if_false]
      refine ⟨⟨{ v with imgURL := url }, ?_, rfl, hurl, ?_⟩, ?_⟩
      · simp
      · simp
      · simp [isSendFinished, hc]

/-- Witness for the amended C3: owner of `exArchJob` has a live
connection, the archive succeeds, the img URL is persisted and exactly
one "finished" notification is issued. -/
theorem C3_archive_success_witness :
    exArchJob.progress = 100 ∧ exArchJob.imgURL = "" ∧
    (exArchJob.orgURL == "") = false ∧
    (∀ pub, exArchEnvClient.putImg exArchJob.orgURL pub =
      Except.ok ("https://cdn/img-archived.png")) ∧
    ("https://cdn/img-archived.png" ≠ "") ∧
    ArchiveSuccessBehavior exArchEnvClient exArchJob [] [] "https://cdn/img-archived.png" :=
  ⟨by decide, by decide, by decide, fun _ => rfl, by decide,
    C3_archive_success exArchEnvClient exArchJob [] [] "https://cdn/img-archived.png"
      (by decide) (by decide) (by decide) (fun _ => rfl) (by decide)⟩

/-- Branching behavior of the archival step on a pending job: when an
owning worker is found by channel id, the archive request for the
original asset carries the `false` flag (a "private" archive) and, when
the connector's latest status has a first button and the upload
succeeds, the persisted row's hash is derived from that button's custom
id; when no owning worker is found, the archive request carries the
`true` flag (a "public" archive). -/
def VariantArchiveBehavior (env : ArchiveEnv) (st : DBState)
    (v : MidJourneyJob) : Prop :=
  let r := processArchiveJob env st v
  ((getServiceName env.services v.channelId).isSome = true →
    r.2.head? = some (ArchiveAction.putImgReq v.orgURL false) ∧
    ∀ b bs url, (env.queryTask v.taskId).buttons = b :: bs →
      env.putImg v.orgURL false = Except.ok url →
      ArchiveAction.updateJob
        { v with hash := env.getImageHash b.customId, imgURL := url } ∈ r.2) ∧
  (getServiceName env.services v.channelId = none →
    r.2.head? = some (ArchiveAction.putImgReq v.orgURL true))

/-- C7: for a job pending archival, the worker-found branch derives the
hash from the first selectable follow-up action of the connector's
latest status (when any exists) and requests a "private" archive
(`PutImg(orgURL, false)`, `pool.go:123-128`); the no-worker branch
requests a "public" archive (`PutImg(orgURL, true)`, `pool.go:130`). -/
theorem C7_worker_branch_archival (env : ArchiveEnv) (st : DBState)
    (v : MidJourneyJob)
    (hprog : v.progress = 100) (himg : v.imgURL = "")
    (horg : (v.orgURL == "") = false) :
    VariantArchiveBehavior env st v := by
  unfold VariantArchiveBehavior processArchiveJob
  rw [horg]
  simp only [Bool.false_eq_true, if_false]
  cases hserv : getServiceName env.services v.channelId with
  | some s =>
    simp only [Option.isSome_some, forall_true_left]
    refine ⟨⟨?_, ?_⟩, by simp⟩
    · unfold archiveFinish
      cases hp : env.putImg v.orgURL false with
      | error e => rfl
      | ok url =>
        dsimp only
        split <;> rfl
    · intro b bs url hb hp
      unfold archiveFinish
      rw [hp]
      have hv1 : hashFromButtons env v = { v with hash := env.getImageHash b.customId } := by
        unfold hashFromButtons
        rw [hb]
      rw [hv1]
      dsimp only
      split <;> simp
  | none =>
    simp only [Option.isSome_none, Bool.false_eq_true, false_implies, true_and,
      forall_true_left]
    unfold archiveFinish
    cases hp : env.putImg v.orgURL true with
    | error e => rfl
    | ok url =>
      dsimp only
      split <;> rfl

/-- Archival environment with a configured worker owning channel
"mj-plus-service-0", whose connector reports one button. -/
def exArchEnvWorker : ArchiveEnv :=
  { services := ["mj-plus-service-0"],
    queryTask := fun _ => { buttons := [{ customId := "MJ::JOB::upsample::1::abc" }] },
    getImageHash := fun s => s ++ "#hash",
    putImg := fun _ _ => Except.ok ("https://cdn/img-archived.png"),
    clients := [5] }

/-- A pending job owned by the configured worker of `exArchEnvWorker`. -/
def exArchJobOwned : MidJourneyJob := { exArchJob with channelId := "mj-plus-service-0" }

/-- Witness for C7 on a pending job owned by a configured worker. -/
theorem C7_worker_branch_archival_witness :
    exArchJobOwned.progress = 100 ∧ exArchJobOwned.imgURL = "" ∧
    (exArchJobOwned.orgURL == "") = false ∧
    VariantArchiveBehavior exArchEnvWorker exSt exArchJobOwned :=
  ⟨by decide, by decide, by decide,
    C7_worker_branch_archival exArchEnvWorker exSt exArchJobOwned
      (by decide) (by decide) (by decide)⟩

/-- C8: when the archive call fails, the store is left unchanged — the
failing job row keeps its populated org URL and empty img URL, so it
still matches the archival scan predicate and is retried on the next
pass; the failure is logged. -/
theorem C8_archive_failure_frame (env : ArchiveEnv) (st : DBState)
    (v : MidJourneyJob) (e : String)
    (hprog : v.progress = 100) (himg : v.imgURL = "")
    (horg : (v.orgURL == "") = false)
    (hfail : ∀ pub, env.putImg v.orgURL pub = Except.error e) :
    (processArchiveJob env st v).1 = st ∧
    ArchiveAction.logDownloadError v.orgURL e ∈ (processArchiveJob env st v).2 ∧
    pendingArchival v = true := by
  have key : (processArchiveJob env st v).1 = st ∧
      ArchiveAction.logDownloadError v.orgURL e ∈ (processArchiveJob env st v).2 := by
    unfold processArchiveJob
    rw [horg]
    simp only [Bool.false_eq_true, if_false]
    cases hserv : getServiceName env.services v.channelId with
    | some s =>
      unfold archiveFinish
      rw [hfail false]
      exact ⟨rfl, by simp⟩
    | none =>
      unfold archiveFinish
      rw [hfail true]
      exact ⟨rfl, by simp⟩
  exact ⟨key.1, key.2, by simp [pendingArchival, himg, hprog]⟩

/-- Archival environment whose uploader always fails. -/
def exArchEnvFail : ArchiveEnv :=
  { services := [], queryTask := fun _ => { buttons := [] }, getImageHash := fun s => s,
    putImg := fun _ _ => Except.error ("connection refused"), clients := [5] }

/-- Witness for C8: a failing upload leaves the store unchanged and logs
the error. -/
theorem C8_archive_failure_frame_witness :
    exArchJob.progress = 100 ∧ exArchJob.imgURL = "" ∧
    (exArchJob.orgURL == "") = false ∧
    (∀ pub, exArchEnvFail.putImg exArchJob.orgURL pub =
      Except.error ("connection refused")) ∧
    ((processArchiveJob exArchEnvFail exSt exArchJob).1 = exSt ∧
     ArchiveAction.logDownloadError exArchJob.orgURL ("connection refused") ∈
       (processArchiveJob exArchEnvFail exSt exArchJob).2 ∧
     pendingArchival exArchJob = true) :=
  ⟨by decide, by decide, by decide, fun _ => rfl,
    C8_archive_failure_frame exArchEnvFail exSt exArchJob ("connection refused")
      (by decide) (by decide) (by decide) (fun _ => rfl)⟩

/-! ## Loop resilience (C6), notification fan-out (C9), pool construction (C4) -/

/-- Counterexample to C6 as stated: a reconciliation iteration whose
store scan fails performs no effect at all — in particular it emits no
log entry and does not sleep the 10-second interval (the `continue` at
`pool.go:174` precedes both), so the retry is immediate rather than
"after the loop's fixed interval"; a successful iteration, by contrast,
does sleep. -/
theorem C6_counterexample :
    (syncLoopIteration [] 1860 true exSt).1 = exSt ∧
    (syncLoopIteration [] 1860 true exSt).2 = [] ∧
    LoopAction.sleepSeconds 10 ∈ (syncLoopIteration [] 1860 false exSt).2 := by decide

/-- C6 (amended): a transient store failure during the reconciliation or
archival scan makes the loop skip the whole iteration and retry
immediately — no effect is performed, nothing is logged, and the
interval sleep is skipped — and the loop is not aborted: the remaining
iterations run exactly as if the failed one had not happened. -/
theorem C6_scan_failure_skip (services : List String) (now : Int)
    (st : DBState) (rest : List Bool) (env : ArchiveEnv) :
    syncLoopRun services now (true :: rest) st = syncLoopRun services now rest st ∧
    downloadLoopRun env (true :: rest) st = downloadLoopRun env rest st := by
  constructor
  · simp [syncLoopRun, syncLoopIteration]
  · simp [downloadLoopRun, downloadLoopIteration]

/-- C9: a popped message whose target user has no registered live
connection is dropped without any effect and the fan-out continues with
the remaining messages; a message whose delivery fails is likewise
discarded after the attempted send, and a failed pop is skipped.  The
loop's codomain carries no error channel: nothing is raised in any
case. -/
theorem C9_notify_discard (clients : List Nat) (sendOk : Nat → Bool)
    (msg : NotifyMessage) (rest : List (Option NotifyMessage)) :
    (clients.contains msg.userId = false →
      notifyRun clients sendOk (some msg :: rest) = notifyRun clients sendOk rest) ∧
    (clients.contains msg.userId = true → sendOk msg.userId = false →
      notifyRun clients sendOk (some msg :: rest) =
        NotifyAction.send msg.userId msg.message false :: notifyRun clients sendOk rest) ∧
    notifyRun clients sendOk (none :: rest) = notifyRun clients sendOk rest := by
  refine ⟨?_, ?_, ?_⟩
  · intro h
    have h' : msg.userId ∉ clients := by simpa using h
    simp [notifyRun, notifyIteration, h']
  · intro h hf
    have h' : msg.userId ∈ clients := by simpa using h
    simp [notifyRun, notifyIteration, h', hf]
  · simp [notifyRun, notifyIteration]

/-- Witness for C9: a message for user 5 with no registered connection
is dropped and the loop continues. -/
theorem C9_notify_discard_witness :
    (([] : List Nat).contains (5 : Nat) = false) ∧
    notifyRun [] (fun _ => true) [some { userId := 5, message := "done" }] =
      notifyRun [] (fun _ => true) [] :=
  ⟨by decide,
    (C9_notify_discard [] (fun _ => true) { userId := 5, message := "done" } []).1 (by decide)⟩

/-- An enabled proxy backend entry whose endpoint would fail any
validation. -/
def exBadProxyCfg : BackendConfig := { enabled := true, apiURL := "http://bad.example" }

/-- Configuration with no plus entries and one enabled proxy entry. -/
def exCfgProxyOnly : AppConfig :=
  { mjPlusConfigs := [], mjProxyConfigs := [exBadProxyCfg] }

/-- Counterexample to C4 as stated: with a license validator that
rejects every endpoint, the enabled proxy entry still becomes a worker —
the mj-proxy construction loop (`pool.go:62-73`) never consults the
validator, so not every enabled entry of either variant is validated
before a worker is created. -/
theorem C4_counterexample :
    ((fun _ => false : String → Bool) exBadProxyCfg.apiURL = false) ∧
    newServicePool (fun _ => false) exCfgProxyOnly =
      [{ name := "mj-proxy-service-0", client := MjClient.proxy exBadProxyCfg }] := by
  decide

/-- Every member of a list occurs in its `enumFrom` at some index. -/
theorem mem_enumFrom_of_mem {α : Type} {c : α} :
    ∀ (l : List α) (n : Nat), c ∈ l → ∃ k, (k, c) ∈ l.enumFrom n := by
  intro l
  induction l with
  | nil => intro n h; cases h
  | cons a t ih =>
    intro n h
    cases h with
    | head => exact ⟨n, by simp [List.enumFrom]⟩
    | tail _ ht =>
      obtain ⟨k, hk⟩ := ih (n + 1) ht
      exact ⟨k, by simp [List.enumFrom, hk]⟩

/-- C4 (amended): pool construction is total (it never aborts); every
worker it creates arises from an enabled entry, and a plus-variant
worker additionally from an entry whose endpoint passed the
license-validation check — entries failing those checks are skipped.
Proxy-variant entries, however, are not validated: every enabled proxy
entry becomes a worker regardless of the validator. -/
theorem C4_pool_construction (valid : String → Bool) (cfg : AppConfig) :
    (∀ s ∈ newServicePool valid cfg,
      (∀ c, s.client = MjClient.plus c → c.enabled = true ∧ valid c.apiURL = true) ∧
      (∀ c, s.client = MjClient.proxy c → c.enabled = true)) ∧
    (∀ c ∈ cfg.mjProxyConfigs, c.enabled = true →
      ∃ s ∈ newServicePool valid cfg, s.client = MjClient.proxy c) := by
  constructor
  · intro s hs
    rcases List.mem_append.mp hs with h | h
    · obtain ⟨kc, hkc, heq⟩ := List.mem_filterMap.mp h
      unfold mkPlusService at heq
      split_ifs at heq with h1 h2
      simp only [Option.some.injEq] at heq
      subst heq
      constructor
      · intro c hc
        simp only [MjClient.plus.injEq] at hc
        subst hc
        constructor
        · simpa using h1
        · simpa using h2
      · intro c hc
        simp at hc
    · obtain ⟨kc, hkc, heq⟩ := List.mem_filterMap.mp h
      unfold mkProxyService at heq
      split_ifs at heq with h1
      simp only [Option.some.injEq] at heq
      subst heq
      constructor
      · intro c hc
        simp at hc
      · intro c hc
        simp only [MjClient.proxy.injEq] at hc
        subst hc
        simpa using h1
  · intro c hc he
    obtain ⟨k, hk⟩ := mem_enumFrom_of_mem cfg.mjProxyConfigs 0 hc
    refine ⟨{ name := "mj-proxy-service-" ++ toString k, client := MjClient.proxy c },
      ?_, rfl⟩
    apply List.mem_append.mpr
    right
    apply List.mem_filterMap.mpr
    exact ⟨(k, c), hk, by simp [mkProxyService, he]⟩

/-- Witness for the amended C4: the enabled proxy entry that fails
validation nevertheless yields a worker. -/
theorem C4_pool_construction_witness :
    exBadProxyCfg ∈ exCfgProxyOnly.mjProxyConfigs ∧ exBadProxyCfg.enabled = true ∧
    ∃ s ∈ newServicePool (fun _ => false) exCfgProxyOnly,
      s.client = MjClient.proxy exBadProxyCfg :=
  ⟨by decide, by decide,
    (C4_pool_construction (fun _ => false) exCfgProxyOnly).2 exBadProxyCfg
      (by decide) (by decide)⟩

end GeekMj
